import Mathlib

/-!
Shallow embedding of the BI Genie FastAPI backend
(`deployment/backend/main.py`): the RBAC verifier, the plan
extraction / normalization / validation pipeline, the grid-layout
builder, and the per-session conversation state machine.

Strings are modelled as `List Char`; Python dictionaries as
insertion-ordered association lists; the external collaborators
(language model, analytics platform, identity store, `json.loads`)
as explicit function-valued parameters of an environment record.
-/

namespace SuperGenie

/-- Python strings are modelled as lists of characters. -/
abbrev Str := List Char

/-- The `"{"` character (written via its code to keep literals brace-free). -/
def lbraceChar : Char := '\x7b'

/-- The `"}"` character. -/
def rbraceChar : Char := '\x7d'

/-- ASCII whitespace as recognised by Python's `str.strip` (ASCII fragment). -/
def isPySpace (c : Char) : Bool :=
  c.toNat = 32 || c.toNat = 9 || c.toNat = 10 || c.toNat = 13 ||
  c.toNat = 11 || c.toNat = 12

/-- Python `str.strip()`: drop whitespace from both ends. -/
def pyStrip (s : Str) : Str :=
  (((s.dropWhile isPySpace).reverse.dropWhile isPySpace)).reverse

/-- Python `str.lower()` (ASCII fragment, as used for the confirmation check). -/
def lowerChar (c : Char) : Char :=
  if 65 ≤ c.toNat && c.toNat ≤ 90 then Char.ofNat (c.toNat + 32) else c

/-- Lowercase an entire string. -/
def lowerStr (s : Str) : Str := s.map lowerChar

/-- Python substring test `pat in s`: `pat` occurs contiguously in `s`. -/
def containsSub (pat : Str) : Str → Bool
  | [] => pat.isPrefixOf ([] : Str)
  | c :: rest => pat.isPrefixOf (c :: rest) || containsSub pat rest

/-- `findLastFrom pat s i`: greatest index `j ≤ i` at which `pat` occurs in `s`. -/
def findLastFrom (pat s : Str) : Nat → Option Nat
  | 0 => if pat.isPrefixOf s then some 0 else none
  | i + 1 =>
    if pat.isPrefixOf (s.drop (i + 1)) then some (i + 1)
    else findLastFrom pat s i

/-- Python `s.rfind(pat)` (as an `Option`): index of the last occurrence. -/
def rfindSub (pat s : Str) : Option Nat := findLastFrom pat s s.length

/-- Python `s.rsplit(pat, 1)[0]`: everything before the last occurrence of
`pat`, or the whole string when `pat` does not occur. -/
def pyRsplitBefore (pat s : Str) : Str :=
  match rfindSub pat s with
  | some i => s.take i
  | none => s

/-- Python `s.split(sep, 1)[-1]` for a one-character separator: everything
after the first occurrence, or the whole string when absent. -/
def splitFirstRest (sep : Char) (s : Str) : Str :=
  match s.findIdx? (fun c => c == sep) with
  | some i => s.drop (i + 1)
  | none => s

/-- Python `s.find(c)` (as an `Option`): index of the first occurrence. -/
def findCharIdx (c : Char) (s : Str) : Option Nat := s.findIdx? (fun a => a == c)

/-- Python `s.rfind(c)` (as an `Option`). -/
def rfindCharIdx (c : Char) (s : Str) : Option Nat := findLastFrom [c] s s.length

/-- Association-list lookup: first binding of the key (Python `d.get(k)`). -/
def alookup {α : Type} (m : List (Str × α)) (k : Str) : Option α :=
  match m with
  | [] => none
  | (k', v) :: rest => if k' = k then some v else alookup rest k

/-- Association-list insert with Python-dict semantics: overwrite in place if
the key exists, else append (insertion order preserved). -/
def aset {α : Type} (m : List (Str × α)) (k : Str) (v : α) : List (Str × α) :=
  match m with
  | [] => [(k, v)]
  | (k', v') :: rest =>
    if k' = k then (k, v) :: rest else (k', v') :: aset rest k v

/-- Association-list delete (Python `del d[k]`). -/
def adel {α : Type} (m : List (Str × α)) (k : Str) : List (Str × α) :=
  match m with
  | [] => []
  | (k', v') :: rest => if k' = k then rest else (k', v') :: adel rest k

/-- Dataset metadata as cached per table name: `{"id": ..., "columns": [...]}`. -/
structure DSInfo where
  id : Int
  columns : List Str
deriving DecidableEq

/-- A dataset entry as claimed in the inbound `user_context.datasets` list. -/
structure ClaimedDataset where
  id : Int
  table_name : Str
  columns : List Str
deriving DecidableEq

/-- The claimed `user_context.user` object. -/
structure UserClaim where
  username : Option Str
  first_name : Option Str
  last_name : Option Str
deriving DecidableEq

/-- The inbound, unverified `user_context` payload. -/
structure UserContext where
  user : Option UserClaim
  datasets : Option (List ClaimedDataset)
deriving DecidableEq

/-- A record returned by the identity store's user query. -/
structure UserRec where
  id : Int
deriving DecidableEq

/-- The verified identity produced by `verify_user_context`. -/
structure VerifiedUser where
  id : Int
  username : Str
  first_name : Str
  last_name : Str
  datasets : List (Str × DSInfo)
deriving DecidableEq

/-- The admin dataset-id set: `{info["id"] for info in datasets.values()}`. -/
def adminIdsOf (ds : List (Str × DSInfo)) : List Int := ds.map (fun p => p.2.id)

/-- One iteration of the cross-reference loop of `verify_user_context`:
a claimed dataset is recorded (keyed by its table name, with the claimed
columns) only when the admin catalog also knows its id. -/
def crossStep (adminIds : List Int) (m : List (Str × DSInfo))
    (ds : ClaimedDataset) : List (Str × DSInfo) :=
  if adminIds.contains ds.id then aset m ds.table_name ⟨ds.id, ds.columns⟩
  else m

/-- Cross-reference loop of `verify_user_context`: keep only claimed datasets
whose id the admin catalog also knows, inserting by table name. -/
def crossReference (adminIds : List Int) (claimed : List ClaimedDataset) :
    List (Str × DSInfo) :=
  claimed.foldl (crossStep adminIds) []

/-- `verify_user_context`: fail closed on a missing/empty username, a failed
or empty identity query; otherwise intersect the claimed datasets with the
admin catalog's id set. `queryUsers` models the identity-store call:
`none` is a transport error or non-200 status, `some l` the result list. -/
def verify_user_context (queryUsers : Str → Option (List UserRec))
    (adminDatasets : List (Str × DSInfo)) (ctx : Option UserContext) :
    Option VerifiedUser :=
  match ctx with
  | none => none
  | some uc =>
    match uc.user with
    | none => none
    | some claimedUser =>
      let claimedDatasets := uc.datasets.getD []
      match claimedUser.username with
      | none => none
      | some username =>
        if username = [] then none
        else
          match queryUsers username with
          | none => none
          | some [] => none
          | some (u :: _) =>
            some
              { id := u.id
                username := username
                first_name := claimedUser.first_name.getD []
                last_name := claimedUser.last_name.getD []
                datasets := crossReference (adminIdsOf adminDatasets) claimedDatasets }

/-- The fixed affirmative vocabulary of `_is_yes`. -/
def YES : List Str :=
  ["yes".toList, "yep".toList, "ok".toList, "okay".toList, "sure".toList,
   "correct".toList, "right".toList, "looks good".toList, "build it".toList,
   "go ahead".toList, "do it".toList, "proceed".toList]

/-- `_is_yes`: case-insensitive substring match against the fixed vocabulary. -/
def is_yes (msg : Str) : Bool :=
  let m := pyStrip (lowerStr msg)
  YES.any (fun w => containsSub w m)

/-- One chart specification of a build plan; each field models the presence
(and value) of the corresponding JSON key. -/
structure ChartSpec where
  dataset_id : Option Int
  metric_column : Option Str
  dimension_column : Option Str
  chart_type : Option Str
  chart_title : Option Str
deriving DecidableEq

/-- A build plan as decoded from JSON: top-level keys that the backend reads.
`charts` is the multi-chart collection; the trailing five fields model the
legacy single-chart keys at top level. -/
structure Config where
  dashboard_title : Option Str
  charts : Option (List ChartSpec)
  dataset_id : Option Int
  metric_column : Option Str
  dimension_column : Option Str
  chart_type : Option Str
  chart_title : Option Str
deriving DecidableEq

/-- The fence marker `"```"`. -/
def fenceMarker : Str := "```".toList

/-- The candidate substring `_parse_json` hands to `json.loads`: strip, drop a
leading fenced-code block marker, then slice from the first `"{"` to the last
`"}"`. `none` models the `ValueError` when no object delimiters are found. -/
def extractCandidate (text : Str) : Option Str :=
  let t0 := pyStrip text
  let t1 :=
    if fenceMarker.isPrefixOf t0 then
      pyRsplitBefore fenceMarker (splitFirstRest '\n' t0)
    else t0
  match findCharIdx lbraceChar t1, rfindCharIdx rbraceChar t1 with
  | some s, some e => some ((t1.take (e + 1)).drop s)
  | some _, none => none
  | none, _ => none

/-- `_parse_json`, parameterised by `loads`, the external JSON decoder
(`json.loads`); `none` models either extraction or decoding failure. -/
def parse_json (loads : Str → Option Config) (text : Str) : Option Config :=
  (extractCandidate text).bind loads

/-- The placeholder dashboard title used by `_normalize_config`. -/
def defaultDashboardTitle : Str := "Dashboard".toList

/-- `_normalize_config`: a plan with a `charts` key is returned unchanged; a
legacy single-chart plan is wrapped into a one-element `charts` sequence.
`none` models the `KeyError` raised when a legacy key is absent. -/
def normalize_config (config : Config) : Option Config :=
  if config.charts.isSome then some config
  else
    match config.dataset_id, config.metric_column, config.dimension_column,
        config.chart_type, config.chart_title with
    | some d, some mc, some dc, some ct, some cht =>
      some
        { dashboard_title := some (config.dashboard_title.getD defaultDashboardTitle)
          charts := some [⟨some d, some mc, some dc, some ct, some cht⟩]
          dataset_id := none
          metric_column := none
          dimension_column := none
          chart_type := none
          chart_title := none }
    | _, _, _, _, _ => none

/-- Validation errors of `_validate_config` (each a distinct `ValueError`). -/
inductive VErr where
  | missingDashboardTitle
  | noCharts
  | missingKeys (i : Nat) (keys : List Str)
  | unauthorizedDataset (i : Nat) (id : Int)
deriving DecidableEq

/-- The required keys missing from a chart (`required - c.keys()`). -/
def missingKeysOf (c : ChartSpec) : List Str :=
  (if c.dataset_id.isNone then ["dataset_id".toList] else []) ++
  (if c.metric_column.isNone then ["metric_column".toList] else []) ++
  (if c.dimension_column.isNone then ["dimension_column".toList] else []) ++
  (if c.chart_type.isNone then ["chart_type".toList] else []) ++
  (if c.chart_title.isNone then ["chart_title".toList] else [])

/-- The per-chart loop of `_validate_config`: for each chart in order, first
the structural missing-keys check, then the dataset-authorization check. -/
def validate_charts (knownIds : List Int) (i : Nat) :
    List ChartSpec → Except VErr Unit
  | [] => .ok ()
  | c :: rest =>
    if missingKeysOf c ≠ [] then .error (.missingKeys i (missingKeysOf c))
    else if (knownIds.contains (c.dataset_id.getD 0)) = false then
      .error (.unauthorizedDataset i (c.dataset_id.getD 0))
    else validate_charts knownIds (i + 1) rest

/-- The dataset source `_validate_config` authorizes against: the user's
datasets when that mapping is *truthy* (non-empty), else the admin catalog
(Python `user_datasets if user_datasets else datasets`). -/
def dsSource (user_datasets : Option (List (Str × DSInfo)))
    (adminDatasets : List (Str × DSInfo)) : List (Str × DSInfo) :=
  match user_datasets with
  | some l => if l.isEmpty then adminDatasets else l
  | none => adminDatasets

/-- `_validate_config`: global structural checks (`dashboard_title` present,
`charts` non-empty), then the per-chart loop. -/
def validate_config (config : Config)
    (user_datasets : Option (List (Str × DSInfo)))
    (adminDatasets : List (Str × DSInfo)) : Except VErr Unit :=
  if config.dashboard_title.isNone then .error .missingDashboardTitle
  else
    let charts := config.charts.getD []
    if charts.isEmpty then .error .noCharts
    else validate_charts (adminIdsOf (dsSource user_datasets adminDatasets)) 0 charts

/-- `VIZ_MAP`: chart-type → Superset `viz_type`. -/
def VIZ_MAP : List (Str × Str) :=
  [("bar".toList, "echarts_timeseries_bar".toList),
   ("line".toList, "echarts_timeseries_line".toList),
   ("table".toList, "table".toList),
   ("pie".toList, "pie".toList)]

/-- `VIZ_MAP.get(chart_type, "echarts_timeseries_bar")` as used by
`_build_dashboard`. -/
def vizFor (chart_type : Str) : Str :=
  (alookup VIZ_MAP chart_type).getD ("echarts_timeseries_bar".toList)

/-! ## Grid layout (`_build_position_json`) -/

/-- A node of the Superset position document. -/
inductive PosNode where
  | version (v : Str)
  | root (children : List Str)
  | grid (children : List Str) (parents : List Str)
  | row (children : List Str) (parents : List Str)
  | chart (chartId : Int) (height : Nat) (sliceName : Str) (width : Nat)
      (parents : List Str)
deriving DecidableEq

/-- Decimal rendering of a counter, for `ROW-{n}` / `CHART-{n}` keys. -/
def natKey (n : Nat) : Str := Nat.toDigits 10 n

/-- The key `ROW-{n}`. -/
def rowKey (n : Nat) : Str := "ROW-".toList ++ natKey n

/-- The key `CHART-{n}`. -/
def chartKey (n : Nat) : Str := "CHART-".toList ++ natKey n

/-- One produced chart entry: key, chart id, title, width, owning row key. -/
structure ChartEntry where
  key : Str
  cid : Int
  title : Str
  width : Nat
  rowk : Str
deriving DecidableEq

/-- The `while i < n` loop of `_build_position_json` on the remaining
`(chart_id, title)` pairs: two charts of width 6 per row while at least two
remain, a single full-width (12) row for an odd trailing chart. `i` and `rn`
carry the chart and row counters. Returns the row keys with their children,
and the chart entries. -/
def layoutRows : List (Int × Str) → Nat → Nat →
    List (Str × List Str) × List ChartEntry
  | [], _, _ => ([], [])
  | [(cid, t)], i, rn =>
    ([(rowKey (rn + 1), [chartKey (i + 1)])],
     [⟨chartKey (i + 1), cid, t, 12, rowKey (rn + 1)⟩])
  | (c1, t1) :: (c2, t2) :: rest, i, rn =>
    let rid := rowKey (rn + 1)
    let (rs, es) := layoutRows rest (i + 2) (rn + 1)
    ((rid, [chartKey (i + 1), chartKey (i + 2)]) :: rs,
     ⟨chartKey (i + 1), c1, t1, 6, rid⟩ ::
       ⟨chartKey (i + 2), c2, t2, 6, rid⟩ :: es)

/-- `_build_position_json`: assemble the full position document, in the
insertion order of the source (version key, root, rows, grid, charts). -/
def build_position_json (chart_ids : List Int) (chart_titles : List Str) :
    List (Str × PosNode) :=
  let (rows, entries) := layoutRows (chart_ids.zip chart_titles) 0 0
  ("DASHBOARD_VERSION_KEY".toList, .version ("v2".toList)) ::
  ("ROOT_ID".toList, .root ["GRID_ID".toList]) ::
  rows.map (fun r => (r.1, PosNode.row r.2 ["ROOT_ID".toList, "GRID_ID".toList])) ++
  [("GRID_ID".toList, .grid (rows.map (fun r => r.1)) ["ROOT_ID".toList])] ++
  entries.map (fun e =>
    (e.key, PosNode.chart e.cid 50 e.title e.width
      ["ROOT_ID".toList, "GRID_ID".toList, e.rowk]))

/-! ## Session state machine (`/message`, `/history`, `/reset`) -/

/-- Session states. -/
inductive SState where
  | new
  | proposing
  | waiting_confirm
  | building
  | done
deriving DecidableEq

/-- One conversation turn. -/
structure Turn where
  role : Str
  content : Str
deriving DecidableEq

/-- A session record. -/
structure Session where
  history : List Turn
  state : SState
  proposed_config : Option Config
  dashboard_url : Option Str
  last_active : Nat
  user : Option VerifiedUser
deriving DecidableEq

/-- The process-wide session store, keyed by session id. -/
abbrev Sessions := List (Str × Session)

/-- `SESSION_TIMEOUT`: 30 minutes of inactivity. -/
def SESSION_TIMEOUT : Nat := 1800

/-- The environment of external effects: the clock, the identity-store query,
the language-model call (which may fail), the JSON decoder, the dashboard
build (which may fail), and the admin dataset catalog. -/
structure Env where
  now : Nat
  queryUsers : Str → Option (List UserRec)
  claude : List Turn → Except Str Str
  loads : Str → Option Config
  build : Config → Option Int → Except Str Str
  adminDatasets : List (Str × DSInfo)

/-- The JSON body returned by `/message`. -/
structure Response where
  reply : Str
  state : SState
  dashboard_url : Option Str
deriving DecidableEq

/-- The directive turn injected on confirmation (the `SYSTEM:` JSON request). -/
def directiveText : Str :=
  ("SYSTEM: The user confirmed. The backend will now automatically create the dashboard. " ++
   "Your ONLY job is to output a single JSON object so the backend knows what to build. " ++
   "Output ONLY raw JSON - no explanation, no markdown, no code fences. " ++
   "Use this exact format:\n" ++
   "\x7b\"dashboard_title\": \"<str>\", \"charts\": [" ++
   "\x7b\"dataset_id\": <int>, \"metric_column\": \"<str>\", \"dimension_column\": \"<str>\", " ++
   "\"chart_type\": \"<bar|line|table|pie>\", \"chart_title\": \"<str>\"\x7d" ++
   "]\x7d\n" ++
   "Include ALL charts you proposed in the charts array.").toList

/-- The directive turn as stored in the history. -/
def directiveTurn : Turn := ⟨"user".toList, directiveText⟩

/-- The fresh session created on first contact
(`sessions[sid] = {"history": [], "state": "new", ...}`), with the optional
up-front identity verification. -/
def initialSession (env : Env) (ctx : Option UserContext) : Session :=
  { history := []
    state := .new
    proposed_config := none
    dashboard_url := none
    last_active := env.now
    user :=
      match ctx with
      | none => none
      | some c => verify_user_context env.queryUsers env.adminDatasets (some c) }

/-- Late user-context verification: only when the session has no user yet and
a context is supplied, and only a successful verification is recorded. -/
def late_user (env : Env) (ctx : Option UserContext)
    (u : Option VerifiedUser) : Option VerifiedUser :=
  if u.isNone && ctx.isSome then
    match verify_user_context env.queryUsers env.adminDatasets ctx with
    | some vu => some vu
    | none => u
  else u

/-- Failure cases of the `try` block inside the confirmed-build branch. -/
inductive BuildFailure where
  | parseFailed
  | normalizeFailed
  | validateFailed (e : VErr)
  | buildFailed (msg : Str)
deriving DecidableEq

/-- Render a validation error roughly as its `ValueError` message. -/
def renderVErr : VErr → Str
  | .missingDashboardTitle => "Missing dashboard_title".toList
  | .noCharts => "No charts in config".toList
  | .missingKeys i ks =>
    "Chart ".toList ++ natKey i ++ ": missing keys ".toList ++ ks.flatten
  | .unauthorizedDataset i d =>
    "Chart ".toList ++ natKey i ++ ": dataset_id ".toList ++
    (Nat.toDigits 10 d.toNat) ++ " is not accessible".toList

/-- Render a build-attempt failure as the exception text interpolated into
the user-facing retry prompt. -/
def renderFailure : BuildFailure → Str
  | .parseFailed => "No JSON object found in response".toList
  | .normalizeFailed => "KeyError".toList
  | .validateFailed e => renderVErr e
  | .buildFailed m => m

/-- The `try` block of the confirmed-build branch: extract, normalize,
validate, build; the first failing stage aborts the attempt. -/
def build_attempt (env : Env) (user : Option VerifiedUser)
    (json_reply : Str) : Except BuildFailure (Config × Str) :=
  match parse_json env.loads json_reply with
  | none => .error .parseFailed
  | some c0 =>
    match normalize_config c0 with
    | none => .error .normalizeFailed
    | some config =>
      let user_ds :=
        match user with
        | some u => some u.datasets
        | none => none
      match validate_config config user_ds env.adminDatasets with
      | .error e => .error (.validateFailed e)
      | .ok _ =>
        let owner := user.map (fun u => u.id)
        match env.build config owner with
        | .error m => .error (.buildFailed m)
        | .ok url => .ok (config, url)

/-- The success reply `"Done! I created {n} chart(s) in your dashboard: {url}"`. -/
def doneReply (n : Nat) (url : Str) : Str :=
  "Done! I created ".toList ++ natKey n ++
  (if n > 1 then " charts".toList else " chart".toList) ++
  " in your dashboard: ".toList ++ url

/-- The retry prompt returned when the build attempt fails. -/
def failReply (e : BuildFailure) : Str :=
  "Sorry, the build failed (".toList ++ renderFailure e ++
  "). Could you rephrase your request?".toList

/-- The fallback reply for an unmatched state. -/
def wrongReply : Str := "Something went wrong. Please refresh and try again.".toList

/-- `_handle_message`: the full message handler. The result pairs the
handler's outcome (`Except` models an escaping exception) with the session
store as mutated so far — Python mutates the stored session in place, so
mutations made before an exception persist. -/
def handle_message (env : Env) (sessions0 : Sessions) (sid : Str)
    (rawMsg : Str) (ctx : Option UserContext) :
    Except Str Response × Sessions :=
  let user_msg := pyStrip rawMsg
  let sess0 :=
    match alookup sessions0 sid with
    | some s => s
    | none => initialSession env ctx
  let sess1 := { sess0 with last_active := env.now }
  let sess2 := { sess1 with user := late_user env ctx sess1.user }
  let sess3 := { sess2 with history := sess2.history ++ [Turn.mk ("user".toList) user_msg] }
  match sess3.state with
  | .new | .proposing =>
    (match env.claude sess3.history with
     | .error e => (.error e, aset sessions0 sid sess3)
     | .ok reply =>
       let s4 := { sess3 with
         history := sess3.history ++ [Turn.mk ("assistant".toList) reply]
         state := .waiting_confirm }
       (.ok (Response.mk reply .waiting_confirm none), aset sessions0 sid s4))
  | .waiting_confirm =>
    if is_yes user_msg then
      let s4 := { sess3 with
        history := sess3.history ++ [directiveTurn]
        state := .building }
      match env.claude s4.history with
      | .error e => (.error e, aset sessions0 sid s4)
      | .ok json_reply =>
        let s5 := { s4 with
          history := s4.history ++ [Turn.mk ("assistant".toList) json_reply] }
        match build_attempt env s5.user json_reply with
        | .ok (config, url) =>
          let n := (config.charts.getD []).length
          let s6 := { s5 with state := .done, dashboard_url := some url }
          (.ok (Response.mk (doneReply n url) .done (some url)), aset sessions0 sid s6)
        | .error e =>
          let s6 := { s5 with state := .waiting_confirm }
          (.ok (Response.mk (failReply e) .waiting_confirm none), aset sessions0 sid s6)
    else
      match env.claude sess3.history with
      | .error e => (.error e, aset sessions0 sid sess3)
      | .ok reply =>
        let s4 := { sess3 with
          history := sess3.history ++ [Turn.mk ("assistant".toList) reply] }
        (.ok (Response.mk reply .waiting_confirm none), aset sessions0 sid s4)
  | .done =>
    let s4 := { sess3 with
      history := [Turn.mk ("user".toList) user_msg]
      state := .proposing }
    (match env.claude s4.history with
     | .error e => (.error e, aset sessions0 sid s4)
     | .ok reply =>
       let s5 := { s4 with
         history := s4.history ++ [Turn.mk ("assistant".toList) reply]
         state := .waiting_confirm }
       (.ok (Response.mk reply .waiting_confirm none), aset sessions0 sid s5))
  | .building =>
    (.ok (Response.mk wrongReply .new none), aset sessions0 sid sess3)

/-- The `/message` endpoint: `_handle_message` wrapped in the outermost
exception handler, which converts any escaping error into an in-band
`"Error: ..."` reply with response state `new`. -/
def serve_message (env : Env) (sessions0 : Sessions) (sid : Str)
    (rawMsg : Str) (ctx : Option UserContext) : Response × Sessions :=
  match handle_message env sessions0 sid rawMsg ctx with
  | (.ok r, ss) => (r, ss)
  | (.error e, ss) =>
    let msg :=
      if containsSub ("credit balance".toList) (lowerStr e) then
        "Insufficient API credits. Please check your LLM provider billing.".toList
      else e
    (Response.mk ("Error: ".toList ++ msg) .new none, ss)

/-- The `/history/{session_id}` endpoint: absent → empty; expired → empty
and the session is deleted; else the stored turns minus directive
(`SYSTEM:`-prefixed) turns. -/
def history_endpoint (now : Nat) (sessions : Sessions) (sid : Str) :
    List Turn × Sessions :=
  match alookup sessions sid with
  | none => ([], sessions)
  | some sess =>
    if now - sess.last_active > SESSION_TIMEOUT then ([], adel sessions sid)
    else
      (sess.history.filter
        (fun m => !(("SYSTEM:".toList).isPrefixOf m.content)), sessions)

/-- The `/reset/{session_id}` endpoint. -/
def reset_endpoint (sessions : Sessions) (sid : Str) : Sessions :=
  adel sessions sid

/-! ## Association-list lemmas -/

/-- Admin catalog for the C1 failing input: one dataset with id 1. -/
def c1Admin : List (Str × DSInfo) :=
  [("sales".toList, ⟨1, ["region".toList, "amount".toList]⟩)]

/-- A complete chart spec referencing dataset id 1 (admin-known). -/
def c1Chart : ChartSpec :=
  ⟨some 1, some ("amount".toList), some ("region".toList),
   some ("bar".toList), some ("Sales by region".toList)⟩

/-- The plan for the C1 failing input. -/
def c1Config : Config :=
  ⟨some ("Sales".toList), some [c1Chart], none, none, none, none, none⟩

/-- A verified identity whose `datasets` mapping is empty. -/
def c1User : VerifiedUser :=
  ⟨7, "alice".toList, "Alice".toList, "A".toList, []⟩

/-- Environment for the C1 end-to-end run: the model returns a bare JSON
object, the decoder yields the C1 plan, the build succeeds. -/
def c1Env : Env :=
  { now := 0
    queryUsers := fun _ => none
    claude := fun _ => .ok ("\x7b\x7d".toList)
    loads := fun _ => some c1Config
    build := fun _ _ => .ok ("http://localhost:9088/superset/dashboard/1/".toList)
    adminDatasets := c1Admin }

/-- Session store for the C1 run: one confirmed session owned by the
verified empty-datasets identity. -/
def c1Sessions : Sessions :=
  [("s1".toList,
    ⟨[], .waiting_confirm, none, none, 0, some c1User⟩)]

/-- Admin catalog for the C5 counterexample: dataset id 1 only. -/
def c5Admin : List (Str × DSInfo) := [("tbl".toList, ⟨1, []⟩)]

/-- Chart 0: structurally complete but referencing unauthorized id 42. -/
def c5Chart0 : ChartSpec :=
  ⟨some 42, some ("m".toList), some ("d".toList), some ("bar".toList),
   some ("t0".toList)⟩

/-- Chart 1: missing the `metric_column` key. -/
def c5Chart1 : ChartSpec :=
  ⟨some 1, none, some ("d".toList), some ("bar".toList), some ("t1".toList)⟩

/-- The C5 counterexample plan: an unauthorized complete chart before a
malformed chart. -/
def c5Config : Config :=
  ⟨some ("T".toList), some [c5Chart0, c5Chart1], none, none, none, none, none⟩

/-- A one-element `charts` plan with no `dashboard_title`. -/
def c8Config : Config :=
  ⟨none,
   some [⟨some 1, some ("m".toList), some ("d".toList), some ("bar".toList),
         some ("t".toList)⟩],
   none, none, none, none, none⟩

/-- A model response wrapping the text `t` in fenced-code markers. -/
def wrapFence (t : Str) : Str :=
  "```json\n".toList ++ (t ++ "\n```".toList)

/-- The expected width pattern: pairs of width 6, a final odd chart 12. -/
def widthsPattern : Nat → List Nat
  | 0 => []
  | 1 => [12]
  | n + 2 => 6 :: 6 :: widthsPattern n

/-- Group a list into consecutive pairs, a trailing singleton kept alone. -/
def chunk2 {α : Type} : List α → List (List α)
  | [] => []
  | [x] => [[x]]
  | x :: y :: rest => [x, y] :: chunk2 rest

/-- Concrete session store for the C6 witness. -/
def c6Sessions : Sessions :=
  [("s".toList, ⟨[], .waiting_confirm, none, none, 0, none⟩)]

/-- Concrete environment for the C6 witness. -/
def c6Env : Env :=
  { now := 1
    queryUsers := fun _ => none
    claude := fun _ => .ok ("hello".toList)
    loads := fun _ => none
    build := fun _ _ => .error []
    adminDatasets := [] }

/-- Session store for the C2 runs: one confirmed session. -/
def c2Sessions : Sessions :=
  [("s".toList, ⟨[], .waiting_confirm, none, none, 0, none⟩)]

/-- Environment where the language-model call itself fails. -/
def c2FailEnv : Env :=
  { now := 0
    queryUsers := fun _ => none
    claude := fun _ => .error ("LLM unavailable".toList)
    loads := fun _ => none
    build := fun _ _ => .error ("down".toList)
    adminDatasets := [] }

/-- Environment whose model call succeeds with a non-JSON reply, so the
build attempt fails at extraction. -/
def c2OkEnv : Env :=
  { now := 0
    queryUsers := fun _ => none
    claude := fun _ => .ok ("no json here".toList)
    loads := fun _ => none
    build := fun _ _ => .error ("down".toList)
    adminDatasets := [] }

/-- A pre-existing turn of the expired session. -/
def c4OldTurn : Turn := ⟨"assistant".toList, "old proposal".toList⟩

/-- Session store with a session idle since time 0. -/
def c4Sessions : Sessions :=
  [("s".toList, ⟨[c4OldTurn], .waiting_confirm, none, none, 0, none⟩)]

/-- Environment whose clock is far past the session timeout. -/
def c4Env : Env :=
  { now := 100000
    queryUsers := fun _ => none
    claude := fun _ => .ok ("hi".toList)
    loads := fun _ => none
    build := fun _ _ => .error []
    adminDatasets := [] }

theorem alookup_aset_self {α : Type} (m : List (Str × α)) (k : Str) (v : α) :
    alookup (aset m k v) k = some v := by
  induction m with
  | nil => simp [aset, alookup]
  | cons p rest ih =>
    obtain ⟨k', v'⟩ := p
    by_cases h : k' = k
    · simp [aset, h, alookup]
    · simp [aset, h, alookup, ih]

theorem alookup_aset_ne {α : Type} (m : List (Str × α)) (k k' : Str) (v : α)
    (h : k' ≠ k) : alookup (aset m k v) k' = alookup m k' := by
  induction m with
  | nil =>
    simp only [aset, alookup]
    rw [if_neg (fun hh => h (Eq.symm hh))]
  | cons p rest ih =>
    obtain ⟨k0, v0⟩ := p
    simp only [aset]
    by_cases h0 : k0 = k
    · subst h0
      simp only [if_pos rfl, alookup]
      rw [if_neg (fun hh => h (Eq.symm hh)), if_neg (fun hh => h (Eq.symm hh))]
    · rw [if_neg h0]
      simp only [alookup, ih]

/-! ## Validation lemmas -/

theorem missingKeysOf_eq_nil (c : ChartSpec)
    (h1 : c.dataset_id.isSome) (h2 : c.metric_column.isSome)
    (h3 : c.dimension_column.isSome) (h4 : c.chart_type.isSome)
    (h5 : c.chart_title.isSome) : missingKeysOf c = [] := by
  obtain ⟨d, hd⟩ := Option.isSome_iff_exists.mp h1
  obtain ⟨a2, ha2⟩ := Option.isSome_iff_exists.mp h2
  obtain ⟨a3, ha3⟩ := Option.isSome_iff_exists.mp h3
  obtain ⟨a4, ha4⟩ := Option.isSome_iff_exists.mp h4
  obtain ⟨a5, ha5⟩ := Option.isSome_iff_exists.mp h5
  simp [missingKeysOf, hd, ha2, ha3, ha4, ha5]

theorem validate_charts_ok (kn : List Int) :
    ∀ (l : List ChartSpec) (i : Nat),
      (∀ c ∈ l, missingKeysOf c = [] ∧
        kn.contains (c.dataset_id.getD 0) = true) →
      validate_charts kn i l = .ok ()
  | [], _, _ => rfl
  | c :: rest, i, h => by
    have hc := h c (List.mem_cons_self c rest)
    have hmem : c.dataset_id.getD 0 ∈ kn := by simpa using hc.2
    have ih := validate_charts_ok kn rest (i + 1)
      (fun c' hc' => h c' (List.mem_cons_of_mem _ hc'))
    simp [validate_charts, hc.1, hmem, ih]

theorem validate_charts_skip (kn : List Int) :
    ∀ (pre rest : List ChartSpec) (i : Nat),
      (∀ c ∈ pre, missingKeysOf c = [] ∧
        kn.contains (c.dataset_id.getD 0) = true) →
      validate_charts kn i (pre ++ rest) =
        validate_charts kn (i + pre.length) rest
  | [], rest, i, _ => by simp
  | c :: pre', rest, i, h => by
    have hc := h c (List.mem_cons_self c pre')
    have hmem : c.dataset_id.getD 0 ∈ kn := by simpa using hc.2
    have ih := validate_charts_skip kn pre' rest (i + 1)
      (fun c' hc' => h c' (List.mem_cons_of_mem _ hc'))
    calc validate_charts kn i ((c :: pre') ++ rest)
        = validate_charts kn (i + 1) (pre' ++ rest) := by
          simp [validate_charts, hc.1, hmem]
      _ = validate_charts kn (i + 1 + pre'.length) rest := ih
      _ = validate_charts kn (i + (c :: pre').length) rest := by
          rw [show i + 1 + pre'.length = i + (pre'.length + 1) from by omega,
            List.length_cons]

/-! ## C1 — RBAC scoping of plan validation

The admin catalog knows dataset id 1; the verified identity's `datasets`
mapping is empty. The spec requires that such an identity authorizes no
chart, but `_validate_config`'s Python truthiness test
(`user_datasets if user_datasets else datasets`) treats the provided empty
mapping like an absent one and falls back to the admin catalog. -/

/-- C1: for a verified identity whose datasets mapping is empty, the claim
(and spec) say no chart spec passes validation; the code instead widens to
the administrator catalog: validation of a chart referencing admin dataset
id 1 succeeds against the empty scoped set, and a full confirmed message
run with that identity builds the dashboard (session reaches `done`). -/
theorem c1_empty_user_datasets_falls_back_to_admin :
    validate_config c1Config (some []) c1Admin = .ok () ∧
    (let out := serve_message c1Env c1Sessions ("s1".toList) ("yes".toList) none
     (alookup out.2 ("s1".toList)).map Session.state = some SState.done ∧
       out.1.state = SState.done) := by
  constructor
  · rfl
  · constructor <;> rfl

/-! ## C10 — validation ignores the chart_type value -/

/-- C10: validation checks only the presence of `chart_type`, never its
value: any plan whose charts carry all five required keys and an authorized
`dataset_id` validates, whatever string `chart_type` holds; and the builder
maps every string outside the `VIZ_MAP` enum to `echarts_timeseries_bar`. -/
theorem validate_ignores_chart_type_value
    (adminDS : List (Str × DSInfo)) (ud : Option (List (Str × DSInfo)))
    (cfg : Config) (l : List ChartSpec)
    (ht : cfg.dashboard_title.isSome)
    (hc : cfg.charts = some l) (hne : l ≠ [])
    (hall : ∀ c ∈ l, c.dataset_id.isSome ∧ c.metric_column.isSome ∧
      c.dimension_column.isSome ∧ c.chart_type.isSome ∧ c.chart_title.isSome ∧
      (adminIdsOf (dsSource ud adminDS)).contains (c.dataset_id.getD 0) = true) :
    validate_config cfg ud adminDS = .ok () ∧
    ∀ ct : Str, ct ≠ "bar".toList → ct ≠ "line".toList →
      ct ≠ "table".toList → ct ≠ "pie".toList →
      vizFor ct = "echarts_timeseries_bar".toList := by
  constructor
  · obtain ⟨t, ht'⟩ := Option.isSome_iff_exists.mp ht
    have hok : validate_charts (adminIdsOf (dsSource ud adminDS)) 0 l = .ok () :=
      validate_charts_ok _ l 0 (fun c hcmem => by
        obtain ⟨h1, h2, h3, h4, h5, h6⟩ := hall c hcmem
        exact ⟨missingKeysOf_eq_nil c h1 h2 h3 h4 h5, h6⟩)
    simp [validate_config, ht', hc, hok, List.isEmpty_iff, hne]
  · intro ct h1 h2 h3 h4
    have hlook : alookup VIZ_MAP ct = none := by
      simp only [VIZ_MAP, alookup]
      rw [if_neg (fun hh => h1 (Eq.symm hh)), if_neg (fun hh => h2 (Eq.symm hh)),
        if_neg (fun hh => h3 (Eq.symm hh)), if_neg (fun hh => h4 (Eq.symm hh))]
    simp [vizFor, hlook]

/-- Witness for C10: a concrete plan whose single chart has the
unrecognized chart type `"funky"` validates, and `"funky"` maps to the
timeseries-bar identifier. -/
theorem validate_ignores_chart_type_value_witness :
    validate_config
        ⟨some ("T".toList),
         some [⟨some 1, some ("m".toList), some ("d".toList),
               some ("funky".toList), some ("c".toList)⟩],
         none, none, none, none, none⟩
        none c1Admin = .ok () ∧
      vizFor ("funky".toList) = "echarts_timeseries_bar".toList := by
  have h := validate_ignores_chart_type_value c1Admin none
    ⟨some ("T".toList),
     some [⟨some 1, some ("m".toList), some ("d".toList),
           some ("funky".toList), some ("c".toList)⟩],
     none, none, none, none, none⟩
    [⟨some 1, some ("m".toList), some ("d".toList),
      some ("funky".toList), some ("c".toList)⟩]
    (by decide) rfl (by decide) (by decide)
  exact ⟨h.1, h.2 ("funky".toList) (by decide) (by decide) (by decide) (by decide)⟩

/-! ## C5 — validation order is per chart, not globally structural-first -/

/-- C5 counterexample: with chart 0 complete-but-unauthorized and chart 1
missing a required key, the single raised error is chart 0's
`UnauthorizedDataset`, not the structural `MissingField` the claim
requires. -/
theorem c5_unauthorized_before_structural :
    validate_config c5Config none c5Admin =
        .error (.unauthorizedDataset 0 42) ∧
      ∀ (i : Nat) (ks : List Str),
        validate_config c5Config none c5Admin ≠ .error (.missingKeys i ks) := by
  refine ⟨rfl, ?_⟩
  intro i ks h
  rw [show validate_config c5Config none c5Admin =
    .error (.unauthorizedDataset 0 42) from rfl] at h
  simp at h

/-- C5 amended: the ordering is per chart, in chart order. If every chart
before position `i` is complete and authorized, then a structural defect of
chart `i` is reported (as one aggregated `MissingField` exception naming
chart `i`) even when chart `i` is also unauthorized; and chart `i`'s
authorization failure is reported only when chart `i` is complete. -/
theorem validate_config_per_chart_order
    (adminDS : List (Str × DSInfo)) (ud : Option (List (Str × DSInfo)))
    (cfg : Config) (pre : List ChartSpec) (c : ChartSpec)
    (post : List ChartSpec)
    (ht : cfg.dashboard_title.isSome)
    (hc : cfg.charts = some (pre ++ c :: post))
    (hpre : ∀ c' ∈ pre, missingKeysOf c' = [] ∧
      (adminIdsOf (dsSource ud adminDS)).contains (c'.dataset_id.getD 0) = true) :
    (missingKeysOf c ≠ [] →
      validate_config cfg ud adminDS =
        .error (.missingKeys pre.length (missingKeysOf c))) ∧
    (missingKeysOf c = [] →
      (adminIdsOf (dsSource ud adminDS)).contains (c.dataset_id.getD 0) = false →
      validate_config cfg ud adminDS =
        .error (.unauthorizedDataset pre.length (c.dataset_id.getD 0))) := by
  obtain ⟨t, ht'⟩ := Option.isSome_iff_exists.mp ht
  have hskip := validate_charts_skip (adminIdsOf (dsSource ud adminDS))
    pre (c :: post) 0 hpre
  constructor
  · intro hm
    simp [validate_config, ht', hc, hskip, validate_charts, hm]
  · intro hm hauth
    have hmem : c.dataset_id.getD 0 ∉ adminIdsOf (dsSource ud adminDS) := by
      simpa using hauth
    simp [validate_config, ht', hc, hskip, validate_charts, hm, hmem]

/-- Witness for the amended C5: admin catalog `{id 1}`, chart 0 complete
and authorized, chart 1 missing `metric_column`: the error is
`MissingField` for chart 1. -/
theorem validate_config_per_chart_order_witness :
    validate_config
        ⟨some ("T".toList),
         some [⟨some 1, some ("m".toList), some ("d".toList),
               some ("bar".toList), some ("t0".toList)⟩, c5Chart1],
         none, none, none, none, none⟩
        none c5Admin =
      .error (.missingKeys 1 ["metric_column".toList]) := by
  have h := validate_config_per_chart_order c5Admin none
    ⟨some ("T".toList),
     some [⟨some 1, some ("m".toList), some ("d".toList),
           some ("bar".toList), some ("t0".toList)⟩, c5Chart1],
     none, none, none, none, none⟩
    [⟨some 1, some ("m".toList), some ("d".toList), some ("bar".toList),
      some ("t0".toList)⟩]
    c5Chart1 [] (by decide) rfl (by decide)
  exact h.1 (by decide)

/-! ## C8 — legacy normalization and the dashboard-title default -/

/-- C8 counterexample: for a plan that already has a `charts` collection,
normalization returns it unchanged, so an absent `dashboard_title` is NOT
defaulted to the placeholder — refuting the claim's "whenever it is absent
from the input plan". -/
theorem c8_title_not_defaulted_when_charts_present :
    normalize_config c8Config = some c8Config ∧
      (normalize_config c8Config).map Config.dashboard_title = some none ∧
      (normalize_config c8Config).map Config.dashboard_title ≠
        some (some defaultDashboardTitle) := by
  refine ⟨rfl, rfl, ?_⟩
  intro h
  rw [show (normalize_config c8Config).map Config.dashboard_title = some none
    from rfl] at h
  simp [defaultDashboardTitle] at h

/-- C8 amended: a plan lacking `charts` but carrying the five legacy
single-chart keys is wrapped into the equivalent one-element `charts` plan
(identical to what normalizing that equivalent plan yields), and in this
legacy path an absent `dashboard_title` is defaulted to the placeholder. -/
theorem normalize_config_legacy_wrap
    (cfg : Config) (d : Int) (mc dc ct cht : Str)
    (hch : cfg.charts = none)
    (h1 : cfg.dataset_id = some d) (h2 : cfg.metric_column = some mc)
    (h3 : cfg.dimension_column = some dc) (h4 : cfg.chart_type = some ct)
    (h5 : cfg.chart_title = some cht) :
    normalize_config cfg =
      some ⟨some (cfg.dashboard_title.getD defaultDashboardTitle),
            some [⟨some d, some mc, some dc, some ct, some cht⟩],
            none, none, none, none, none⟩ ∧
    (∀ t : Str, cfg.dashboard_title = some t →
      normalize_config cfg =
          some ⟨some t, some [⟨some d, some mc, some dc, some ct, some cht⟩],
                none, none, none, none, none⟩ ∧
        normalize_config
            ⟨some t, some [⟨some d, some mc, some dc, some ct, some cht⟩],
             none, none, none, none, none⟩ =
          some ⟨some t, some [⟨some d, some mc, some dc, some ct, some cht⟩],
                none, none, none, none, none⟩) ∧
    (cfg.dashboard_title = none →
      normalize_config cfg =
        some ⟨some defaultDashboardTitle,
              some [⟨some d, some mc, some dc, some ct, some cht⟩],
              none, none, none, none, none⟩) := by
  refine ⟨?_, ?_, ?_⟩
  · simp [normalize_config, hch, h1, h2, h3, h4, h5]
  · intro t htt
    constructor
    · simp [normalize_config, hch, h1, h2, h3, h4, h5, htt]
    · simp [normalize_config]
  · intro htt
    simp [normalize_config, hch, h1, h2, h3, h4, h5, htt]

/-- Witness for the amended C8: a concrete legacy plan (with and without a
title) and its equivalent one-element `charts` plan. -/
theorem normalize_config_legacy_wrap_witness :
    normalize_config
        ⟨some ("Sales".toList), none, some 1, some ("m".toList),
         some ("d".toList), some ("bar".toList), some ("t".toList)⟩ =
      some ⟨some ("Sales".toList),
            some [⟨some 1, some ("m".toList), some ("d".toList),
                  some ("bar".toList), some ("t".toList)⟩],
            none, none, none, none, none⟩ ∧
    normalize_config
        ⟨none, none, some 1, some ("m".toList), some ("d".toList),
         some ("bar".toList), some ("t".toList)⟩ =
      some ⟨some defaultDashboardTitle,
            some [⟨some 1, some ("m".toList), some ("d".toList),
                  some ("bar".toList), some ("t".toList)⟩],
            none, none, none, none, none⟩ := by
  constructor
  · exact ((normalize_config_legacy_wrap
      ⟨some ("Sales".toList), none, some 1, some ("m".toList),
       some ("d".toList), some ("bar".toList), some ("t".toList)⟩
      1 ("m".toList) ("d".toList) ("bar".toList) ("t".toList)
      rfl rfl rfl rfl rfl rfl).2.1 ("Sales".toList) rfl).1
  · exact (normalize_config_legacy_wrap
      ⟨none, none, some 1, some ("m".toList), some ("d".toList),
       some ("bar".toList), some ("t".toList)⟩
      1 ("m".toList) ("d".toList) ("bar".toList) ("t".toList)
      rfl rfl rfl rfl rfl rfl).2.2 rfl

/-! ## C3 — RBAC verification -/

/-- The per-name content of the cross-reference fold: looking up `name` in
the fold's result yields the projection of the *last* claimed dataset with
that table name whose id the admin catalog knows, else falls through to the
accumulator. -/
theorem alookup_crossReference_foldl (adminIds : List Int) :
    ∀ (claimed : List ClaimedDataset) (m : List (Str × DSInfo)) (name : Str),
      alookup (claimed.foldl (crossStep adminIds) m) name =
        match (claimed.filter (fun ds =>
            decide (ds.table_name = name) && adminIds.contains ds.id)).getLast? with
        | some ds => some ⟨ds.id, ds.columns⟩
        | none => alookup m name
  | [], m, name => by simp
  | ds0 :: rest, m, name => by
    have IH := fun m' => alookup_crossReference_foldl adminIds rest m' name
    rw [List.foldl_cons]
    by_cases hid : adminIds.contains ds0.id = true
    · have hmem : ds0.id ∈ adminIds := by simpa using hid
      rw [show crossStep adminIds m ds0 =
        aset m ds0.table_name ⟨ds0.id, ds0.columns⟩ from by simp [crossStep, hmem]]
      by_cases hname : ds0.table_name = name
      · have hpred : (decide (ds0.table_name = name) && adminIds.contains ds0.id)
            = true := by simp [hname, hmem]
        rw [List.filter_cons, hpred, if_pos rfl, IH]
        cases hrest : List.filter (fun ds =>
            decide (ds.table_name = name) && adminIds.contains ds.id) rest with
        | nil =>
          show alookup (aset m ds0.table_name ⟨ds0.id, ds0.columns⟩) name =
            some ⟨ds0.id, ds0.columns⟩
          rw [hname, alookup_aset_self]
        | cons x xs =>
          rw [List.getLast?_cons_cons]
          cases hxx : (x :: xs).getLast? with
          | none => simp at hxx
          | some y => rfl
      · have hpred : (decide (ds0.table_name = name) && adminIds.contains ds0.id)
            = false := by simp [hname]
        rw [List.filter_cons, hpred]
        simp only [Bool.false_eq_true, if_false]
        rw [IH]
        cases hrest : List.filter (fun ds =>
            decide (ds.table_name = name) && adminIds.contains ds.id) rest with
        | nil =>
          show alookup (aset m ds0.table_name ⟨ds0.id, ds0.columns⟩) name =
            alookup m name
          exact alookup_aset_ne m ds0.table_name name _ (fun hh => hname hh.symm)
        | cons x xs =>
          cases hxx : (x :: xs).getLast? with
          | none => simp at hxx
          | some y => rfl
    · have hid' : adminIds.contains ds0.id = false := by
        simpa using hid
      have hmem : ds0.id ∉ adminIds := by simpa using hid'
      have hpred : (decide (ds0.table_name = name) && adminIds.contains ds0.id)
          = false := by simp [hmem]
      rw [show crossStep adminIds m ds0 = m from by simp [crossStep, hmem],
        List.filter_cons, hpred]
      simp only [Bool.false_eq_true, if_false]
      exact IH m

/-- C3: the RBAC verifier fails closed — it returns `none` on an absent
context, an absent user object, a missing or empty username, a failed
identity query, or an empty query result — and on success the verified
identity's datasets are exactly the claimed datasets whose id the admin
catalog also contains (per table name, the last such claimed entry),
with unknown-id claims dropped no matter what they assert. -/
theorem verify_user_context_spec
    (q : Str → Option (List UserRec)) (adm : List (Str × DSInfo)) :
    (verify_user_context q adm none = none) ∧
    (∀ uc : UserContext, uc.user = none →
      verify_user_context q adm (some uc) = none) ∧
    (∀ (uc : UserContext) (cu : UserClaim), uc.user = some cu →
      (cu.username = none ∨ cu.username = some []) →
      verify_user_context q adm (some uc) = none) ∧
    (∀ (uc : UserContext) (cu : UserClaim) (u : Str), uc.user = some cu →
      cu.username = some u → u ≠ [] → (q u = none ∨ q u = some []) →
      verify_user_context q adm (some uc) = none) ∧
    (∀ (uc : UserContext) (cu : UserClaim) (u : Str) (r : UserRec)
        (rs : List UserRec),
      uc.user = some cu → cu.username = some u → u ≠ [] → q u = some (r :: rs) →
      verify_user_context q adm (some uc) =
        some ⟨r.id, u, cu.first_name.getD [], cu.last_name.getD [],
              crossReference (adminIdsOf adm) (uc.datasets.getD [])⟩) ∧
    (∀ (adminIds : List Int) (claimed : List ClaimedDataset) (name : Str),
      alookup (crossReference adminIds claimed) name =
        match (claimed.filter (fun ds =>
            decide (ds.table_name = name) && adminIds.contains ds.id)).getLast? with
        | some ds => some ⟨ds.id, ds.columns⟩
        | none => none) := by
  refine ⟨rfl, ?_, ?_, ?_, ?_, ?_⟩
  · intro uc h
    simp [verify_user_context, h]
  · intro uc cu hu hn
    rcases hn with hn | hn <;> simp [verify_user_context, hu, hn]
  · intro uc cu u hu hn hne hq
    rcases hq with hq | hq <;> simp [verify_user_context, hu, hn, hne, hq]
  · intro uc cu u r rs hu hn hne hq
    simp [verify_user_context, hu, hn, hne, hq]
  · intro adminIds claimed name
    rw [crossReference, alookup_crossReference_foldl]
    rcases (claimed.filter (fun ds =>
        decide (ds.table_name = name) && adminIds.contains ds.id)).getLast?
      with _ | ds
    · rfl
    · rfl

/-- Witness for C3: admin catalog `{A: id 1, B: id 2}`, claimed datasets
`[{id 1, "A"}, {id 99, "X"}]`: dataset A (with the claimed columns) is
included, id 99 is excluded; and each fail-closed case returns `none`. -/
theorem verify_user_context_spec_witness :
    verify_user_context
        (fun u => if u = "bob".toList then some [⟨5⟩] else none)
        [("A".toList, ⟨1, ["a1".toList]⟩), ("B".toList, ⟨2, ["b1".toList]⟩)]
        (some ⟨some ⟨some ("bob".toList), some ("Bob".toList), none⟩,
              some [⟨1, "A".toList, ["c1".toList]⟩,
                    ⟨99, "X".toList, ["cx".toList]⟩]⟩) =
      some ⟨5, "bob".toList, "Bob".toList, [],
            [("A".toList, ⟨1, ["c1".toList]⟩)]⟩ ∧
    verify_user_context
        (fun u => if u = "bob".toList then some [⟨5⟩] else none)
        [("A".toList, ⟨1, ["a1".toList]⟩)]
        (some ⟨some ⟨none, none, none⟩, none⟩) = none := by
  constructor
  · have h := (verify_user_context_spec
      (fun u => if u = "bob".toList then some [⟨5⟩] else none)
      [("A".toList, ⟨1, ["a1".toList]⟩), ("B".toList, ⟨2, ["b1".toList]⟩)]).2.2.2.2.1
      ⟨some ⟨some ("bob".toList), some ("Bob".toList), none⟩,
       some [⟨1, "A".toList, ["c1".toList]⟩, ⟨99, "X".toList, ["cx".toList]⟩]⟩
      ⟨some ("bob".toList), some ("Bob".toList), none⟩
      ("bob".toList) ⟨5⟩ [] rfl rfl (by decide) (by decide)
    rw [h]
    decide
  · exact (verify_user_context_spec
      (fun u => if u = "bob".toList then some [⟨5⟩] else none)
      [("A".toList, ⟨1, ["a1".toList]⟩)]).2.2.1
      ⟨some ⟨none, none, none⟩, none⟩ ⟨none, none, none⟩ rfl (Or.inl rfl)

/-! ## C9 — plan extraction round-trip -/

theorem dropWhile_eq_self_of_head (p : Char → Bool) (l : Str)
    (h : ∀ c, l.head? = some c → p c = false) : l.dropWhile p = l := by
  cases l with
  | nil => rfl
  | cons a t => simp [List.dropWhile_cons, h a rfl]

theorem pyStrip_eq_self (s : Str)
    (h1 : ∀ c, s.head? = some c → isPySpace c = false)
    (h2 : ∀ c, s.getLast? = some c → isPySpace c = false) : pyStrip s = s := by
  rw [pyStrip, dropWhile_eq_self_of_head _ _ h1,
    dropWhile_eq_self_of_head _ _
      (fun c hc => h2 c (by rwa [List.head?_reverse] at hc)),
    List.reverse_reverse]

theorem findLastFrom_eq_some (pat s : Str) :
    ∀ (i j : Nat), j ≤ i → pat.isPrefixOf (s.drop j) = true →
      (∀ k, j < k → k ≤ i → pat.isPrefixOf (s.drop k) = false) →
      findLastFrom pat s i = some j
  | 0, j, hj, hpre, _ => by
    have hj0 : j = 0 := Nat.le_zero.mp hj
    subst hj0
    rw [List.drop_zero] at hpre
    simp [findLastFrom, hpre]
  | i + 1, j, hj, hpre, hfail => by
    by_cases hij : j = i + 1
    · subst hij
      simp [findLastFrom, hpre]
    · have hf : pat.isPrefixOf (s.drop (i + 1)) = false :=
        hfail (i + 1) (by omega) (Nat.le_refl _)
      simp only [findLastFrom, hf, Bool.false_eq_true, if_false]
      exact findLastFrom_eq_some pat s i j (by omega) hpre
        (fun k hk1 hk2 => hfail k hk1 (by omega))

theorem extractCandidate_plain (t : Str)
    (hh : t.head? = some lbraceChar) (hl : t.getLast? = some rbraceChar) :
    extractCandidate t = some t := by
  obtain ⟨t0, rfl⟩ : ∃ t0, t = lbraceChar :: t0 := by
    cases t with
    | nil => simp at hh
    | cons a b =>
      refine ⟨b, ?_⟩
      injection hh with h'
      rw [h']
  obtain ⟨u, hu⟩ : ∃ u, lbraceChar :: t0 = u ++ [rbraceChar] :=
    ⟨(lbraceChar :: t0).dropLast,
      (List.dropLast_append_getLast? rbraceChar (Option.mem_def.mpr hl)).symm⟩
  have st1 : pyStrip (lbraceChar :: t0) = lbraceChar :: t0 := by
    refine pyStrip_eq_self _ (fun c hc => ?_) (fun c hc => ?_)
    · injection hc with h'
      subst h'
      decide
    · rw [hl] at hc
      injection hc with h'
      subst h'
      decide
  have st2 : fenceMarker.isPrefixOf (lbraceChar :: t0) = false := rfl
  have st3 : findCharIdx lbraceChar (lbraceChar :: t0) = some 0 := rfl
  have st6 : rfindCharIdx rbraceChar (lbraceChar :: t0) = some u.length := by
    rw [rfindCharIdx, hu]
    rw [show (u ++ [rbraceChar]).length = u.length + 1 from by simp]
    refine findLastFrom_eq_some _ _ (u.length + 1) u.length (by omega) ?_ ?_
    · rw [show (u ++ [rbraceChar]).drop u.length = [rbraceChar] from by
        simpa using @List.drop_append Char u [rbraceChar] 0]
      decide
    · intro k hk1 hk2
      have hk : k = u.length + 1 := by omega
      subst hk
      rw [List.drop_append]
      decide
  simp only [extractCandidate, st1, st2, Bool.false_eq_true, if_false, st3, st6]
  rw [List.drop_zero, hu,
    show u.length + 1 = (u ++ [rbraceChar]).length from by simp,
    List.take_length]

theorem extractCandidate_wrapped (t : Str)
    (hh : t.head? = some lbraceChar) (hl : t.getLast? = some rbraceChar) :
    extractCandidate (wrapFence t) = some t := by
  obtain ⟨t0, rfl⟩ : ∃ t0, t = lbraceChar :: t0 := by
    cases t with
    | nil => simp at hh
    | cons a b =>
      refine ⟨b, ?_⟩
      injection hh with h'
      rw [h']
  obtain ⟨u, hu⟩ : ∃ u, lbraceChar :: t0 = u ++ [rbraceChar] :=
    ⟨(lbraceChar :: t0).dropLast,
      (List.dropLast_append_getLast? rbraceChar (Option.mem_def.mpr hl)).symm⟩
  have st1 : pyStrip (wrapFence (lbraceChar :: t0)) = wrapFence (lbraceChar :: t0) := by
    refine pyStrip_eq_self _ (fun c hc => ?_) (fun c hc => ?_)
    · rw [show (wrapFence (lbraceChar :: t0)).head? = some '\x60' from rfl] at hc
      injection hc with h'
      subst h'
      decide
    · rw [show (wrapFence (lbraceChar :: t0)).getLast? = some '\x60' from by
        rw [wrapFence, List.getLast?_append_of_ne_nil _ (by simp),
          List.getLast?_append_of_ne_nil _ (by simp)]
        decide] at hc
      injection hc with h'
      subst h'
      decide
  have st2 : fenceMarker.isPrefixOf (wrapFence (lbraceChar :: t0)) = true := rfl
  have st3 : splitFirstRest '\n' (wrapFence (lbraceChar :: t0)) =
      (lbraceChar :: t0) ++ "\n```".toList := by
    rw [splitFirstRest]
    rw [show (wrapFence (lbraceChar :: t0)).findIdx? (fun c => c == '\n') =
      some 7 from rfl]
    show ("```json\n".toList ++ ((lbraceChar :: t0) ++ "\n```".toList)).drop
      ("```json\n".toList.length + 0) = _
    rw [List.drop_append, List.drop_zero]
  have st4 : pyRsplitBefore fenceMarker ((lbraceChar :: t0) ++ "\n```".toList) =
      (lbraceChar :: t0) ++ ['\n'] := by
    rw [pyRsplitBefore, rfindSub]
    rw [show ((lbraceChar :: t0) ++ "\n```".toList).length =
      (lbraceChar :: t0).length + 4 from by simp]
    rw [findLastFrom_eq_some _ _ ((lbraceChar :: t0).length + 4)
      ((lbraceChar :: t0).length + 1) (by omega)
      (by
        rw [List.drop_append]
        decide)
      (by
        intro k hk1 hk2
        have hk : k = (lbraceChar :: t0).length + 2 ∨
            k = (lbraceChar :: t0).length + 3 ∨
            k = (lbraceChar :: t0).length + 4 := by omega
        rcases hk with hk | hk | hk <;>
          (subst hk
           rw [List.drop_append]
           decide))]
    show ((lbraceChar :: t0) ++ "\n```".toList).take
      ((lbraceChar :: t0).length + 1) = (lbraceChar :: t0) ++ ['\n']
    rw [List.take_append]
    rfl
  have st5 : findCharIdx lbraceChar ((lbraceChar :: t0) ++ ['\n']) = some 0 := rfl
  have st6 : rfindCharIdx rbraceChar ((lbraceChar :: t0) ++ ['\n']) =
      some u.length := by
    rw [rfindCharIdx, hu, List.append_assoc]
    rw [show (u ++ ([rbraceChar] ++ ['\n'])).length = u.length + 2 from by simp]
    refine findLastFrom_eq_some _ _ (u.length + 2) u.length (by omega) ?_ ?_
    · rw [show (u ++ ([rbraceChar] ++ ['\n'])).drop u.length =
        [rbraceChar] ++ ['\n'] from by
          simpa using @List.drop_append Char u ([rbraceChar] ++ ['\n']) 0]
      decide
    · intro k hk1 hk2
      have hk : k = u.length + 1 ∨ k = u.length + 2 := by omega
      rcases hk with hk | hk <;>
        (subst hk
         rw [List.drop_append]
         decide)
  simp only [extractCandidate, st1, st2, if_true, st3, st4, st5, st6]
  rw [List.drop_zero, hu, List.append_assoc,
    show u.length + 1 = u.length + 1 from rfl, List.take_append]
  rfl

/-- C9: plan extraction strips a leading fenced-code block and slices from
the first `"{"` to the last `"}"`: a response wrapping a JSON object text in
fenced-code markers extracts to exactly the same substring as the bare text
(so both parse to the identical plan under any decoder), and extraction
fails when no object delimiters are found or the substring does not
decode. -/
theorem parse_json_roundtrip (loads : Str → Option Config) (t : Str)
    (hh : t.head? = some lbraceChar) (hl : t.getLast? = some rbraceChar) :
    (parse_json loads (wrapFence t) = loads t ∧ parse_json loads t = loads t) ∧
    (∀ text : Str, extractCandidate text = none → parse_json loads text = none) ∧
    (∀ (text c : Str), extractCandidate text = some c → loads c = none →
      parse_json loads text = none) := by
  refine ⟨⟨?_, ?_⟩, ?_, ?_⟩
  · rw [parse_json, extractCandidate_wrapped t hh hl]
    rfl
  · rw [parse_json, extractCandidate_plain t hh hl]
    rfl
  · intro text hc
    rw [parse_json, hc]
    rfl
  · intro text c hc hload
    rw [parse_json, hc]
    exact hload

/-- Witness for C9: the concrete object text between braces extracts
identically fenced and unfenced, and a fence with no object yields `none`. -/
theorem parse_json_roundtrip_witness :
    parse_json (fun s => if s = "\x7b\"a\": 1\x7d".toList then some c8Config
        else none)
        (wrapFence ("\x7b\"a\": 1\x7d".toList)) = some c8Config ∧
    parse_json (fun s => if s = "\x7b\"a\": 1\x7d".toList then some c8Config
        else none)
        ("\x7b\"a\": 1\x7d".toList) = some c8Config ∧
    parse_json (fun s => if s = "\x7b\"a\": 1\x7d".toList then some c8Config
        else none) ("no object here".toList) = none := by
  have h := parse_json_roundtrip
    (fun s => if s = "\x7b\"a\": 1\x7d".toList then some c8Config else none)
    ("\x7b\"a\": 1\x7d".toList) (by decide) (by decide)
  refine ⟨?_, ?_, ?_⟩
  · rw [h.1.1]
    decide
  · rw [h.1.2]
    decide
  · exact h.2.1 ("no object here".toList) (by decide)

/-! ## C7 — grid layout -/

theorem layoutRows_cid : ∀ (ps : List (Int × Str)) (i rn : Nat),
    ((layoutRows ps i rn).2).map ChartEntry.cid = ps.map Prod.fst
  | [], _, _ => rfl
  | [(c, t)], _, _ => rfl
  | (c1, t1) :: (c2, t2) :: rest, i, rn => by
    have IH := layoutRows_cid rest (i + 2) (rn + 1)
    cases h : layoutRows rest (i + 2) (rn + 1) with
    | mk rs es =>
      rw [h] at IH
      simp only [layoutRows, h]
      simpa using IH

theorem layoutRows_width : ∀ (ps : List (Int × Str)) (i rn : Nat),
    ((layoutRows ps i rn).2).map ChartEntry.width = widthsPattern ps.length
  | [], _, _ => rfl
  | [(c, t)], _, _ => rfl
  | (c1, t1) :: (c2, t2) :: rest, i, rn => by
    have IH := layoutRows_width rest (i + 2) (rn + 1)
    cases h : layoutRows rest (i + 2) (rn + 1) with
    | mk rs es =>
      rw [h] at IH
      simp only [layoutRows, h, List.length_cons]
      rw [show rest.length + 1 + 1 = rest.length + 2 from by omega,
        widthsPattern]
      simpa using IH

theorem layoutRows_chunk : ∀ (ps : List (Int × Str)) (i rn : Nat),
    ((layoutRows ps i rn).1).map Prod.snd =
      chunk2 (((layoutRows ps i rn).2).map ChartEntry.key)
  | [], _, _ => rfl
  | [(c, t)], _, _ => rfl
  | (c1, t1) :: (c2, t2) :: rest, i, rn => by
    have IH := layoutRows_chunk rest (i + 2) (rn + 1)
    cases h : layoutRows rest (i + 2) (rn + 1) with
    | mk rs es =>
      rw [h] at IH
      simp only [layoutRows, h]
      simp only [List.map_cons, chunk2]
      simpa using IH

theorem layoutRows_rowk_mem : ∀ (ps : List (Int × Str)) (i rn : Nat),
    ∀ e ∈ (layoutRows ps i rn).2,
      e.rowk ∈ ((layoutRows ps i rn).1).map Prod.fst
  | [], _, _ => by simp [layoutRows]
  | [(c, t)], _, _ => by simp [layoutRows]
  | (c1, t1) :: (c2, t2) :: rest, i, rn => by
    have IH := layoutRows_rowk_mem rest (i + 2) (rn + 1)
    cases h : layoutRows rest (i + 2) (rn + 1) with
    | mk rs es =>
      rw [h] at IH
      simp only [layoutRows, h]
      intro e he
      simp only [List.mem_cons] at he
      rcases he with he | he | he
      · subst he
        simp
      · subst he
        simp
      · simp only [List.map_cons, List.mem_cons]
        exact Or.inr (by simpa using IH e he)

theorem layoutRows_rowkey_shape : ∀ (ps : List (Int × Str)) (i rn : Nat),
    ∀ r ∈ (layoutRows ps i rn).1, ∃ m, r.1 = rowKey m
  | [], _, _ => by simp [layoutRows]
  | [(c, t)], _, _ => by
    intro r hr
    simp only [layoutRows, List.mem_singleton] at hr
    subst hr
    exact ⟨_, rfl⟩
  | (c1, t1) :: (c2, t2) :: rest, i, rn => by
    have IH := layoutRows_rowkey_shape rest (i + 2) (rn + 1)
    cases h : layoutRows rest (i + 2) (rn + 1) with
    | mk rs es =>
      rw [h] at IH
      simp only [layoutRows, h]
      intro r hr
      simp only [List.mem_cons] at hr
      rcases hr with hr | hr
      · subst hr
        exact ⟨_, rfl⟩
      · exact IH r hr

/-- A `ROW-{m}` key is never the grid container's key. -/
theorem rowKey_ne_grid (m : Nat) : rowKey m ≠ "GRID_ID".toList := by
  intro h
  rw [rowKey] at h
  simp [natKey] at h

theorem alookup_append_of_ne {α : Type} :
    ∀ (L1 L2 : List (Str × α)) (k : Str), (∀ p ∈ L1, p.1 ≠ k) →
      alookup (L1 ++ L2) k = alookup L2 k
  | [], _, _, _ => rfl
  | p :: L1, L2, k, h => by
    rw [List.cons_append, alookup, if_neg (h p (List.mem_cons_self p L1))]
    exact alookup_append_of_ne L1 L2 k (fun q hq => h q (List.mem_cons_of_mem _ hq))

/-- C7: the grid layout pairs charts two-per-row in input order with width
6 each, gives an odd trailing chart a full-width (12) row, and places every
row as a child of the single grid container under the root: chart ids
appear in input order, the width sequence is the 6/6-pairs pattern with a
12 tail for odd length, the rows' children are the chart keys chunked in
consecutive pairs, and the position document has `ROOT → GRID → rows →
charts` parentage. -/
theorem build_position_json_spec (ids : List Int) (titles : List Str)
    (hlen : titles.length = ids.length) :
    ((layoutRows (ids.zip titles) 0 0).2).map ChartEntry.cid = ids ∧
    ((layoutRows (ids.zip titles) 0 0).2).map ChartEntry.width =
      widthsPattern ids.length ∧
    ((layoutRows (ids.zip titles) 0 0).1).map Prod.snd =
      chunk2 (((layoutRows (ids.zip titles) 0 0).2).map ChartEntry.key) ∧
    alookup (build_position_json ids titles) ("ROOT_ID".toList) =
      some (.root ["GRID_ID".toList]) ∧
    alookup (build_position_json ids titles) ("GRID_ID".toList) =
      some (.grid (((layoutRows (ids.zip titles) 0 0).1).map Prod.fst)
        ["ROOT_ID".toList]) ∧
    (∀ r ∈ (layoutRows (ids.zip titles) 0 0).1,
      (r.1, PosNode.row r.2 ["ROOT_ID".toList, "GRID_ID".toList]) ∈
        build_position_json ids titles) ∧
    (∀ e ∈ (layoutRows (ids.zip titles) 0 0).2,
      (e.key, PosNode.chart e.cid 50 e.title e.width
          ["ROOT_ID".toList, "GRID_ID".toList, e.rowk]) ∈
        build_position_json ids titles ∧
      e.rowk ∈ ((layoutRows (ids.zip titles) 0 0).1).map Prod.fst) := by
  have hzip : (ids.zip titles).map Prod.fst = ids :=
    List.map_fst_zip ids titles (by omega)
  have hziplen : (ids.zip titles).length = ids.length := by
    simp [List.length_zip, hlen]
  refine ⟨?_, ?_, layoutRows_chunk _ 0 0, ?_, ?_, ?_, ?_⟩
  · rw [layoutRows_cid, hzip]
  · rw [layoutRows_width, hziplen]
  · cases h : layoutRows (ids.zip titles) 0 0 with
    | mk rows entries =>
      simp only [build_position_json, h, List.cons_append]
      simp only [alookup]
      rw [if_neg (by decide)]
      simp
  · cases h : layoutRows (ids.zip titles) 0 0 with
    | mk rows entries =>
      have hshape := layoutRows_rowkey_shape (ids.zip titles) 0 0
      rw [h] at hshape
      simp only [build_position_json, h, List.cons_append]
      simp only [alookup]
      rw [if_neg (by decide), if_neg (by decide), List.append_assoc,
        alookup_append_of_ne _ _ _ (by
          intro p hp
          simp only [List.mem_map] at hp
          obtain ⟨r, hr, hpr⟩ := hp
          obtain ⟨m, hm⟩ := hshape r hr
          rw [← hpr]
          simpa [hm] using rowKey_ne_grid m),
        List.singleton_append]
      simp only [alookup]
      simp
  · cases h : layoutRows (ids.zip titles) 0 0 with
    | mk rows entries =>
      intro r hr
      simp only [build_position_json, h]
      refine List.mem_append_left _ (List.mem_append_left _ ?_)
      exact List.mem_cons_of_mem _ (List.mem_cons_of_mem _
        (List.mem_map_of_mem _ hr))
  · cases h : layoutRows (ids.zip titles) 0 0 with
    | mk rows entries =>
      have hmem := layoutRows_rowk_mem (ids.zip titles) 0 0
      rw [h] at hmem
      intro e he
      constructor
      · simp only [build_position_json, h]
        exact List.mem_append_right _ (List.mem_map_of_mem _ he)
      · exact hmem e he

/-- Witness for C7: the concrete layouts of lengths 1, 2 and 5 from the
spec's test table, via the general theorem. -/
theorem build_position_json_spec_witness :
    ((layoutRows ([(10 : Int)].zip ["a".toList]) 0 0).2).map ChartEntry.width =
        [12] ∧
    ((layoutRows ([(10 : Int), 20].zip ["a".toList, "b".toList]) 0 0).2).map
        ChartEntry.width = [6, 6] ∧
    ((layoutRows ([(10 : Int), 20, 30, 40, 50].zip
        ["a".toList, "b".toList, "c".toList, "d".toList, "e".toList]) 0 0).2).map
        ChartEntry.width = [6, 6, 6, 6, 12] ∧
    ((layoutRows ([(10 : Int), 20, 30, 40, 50].zip
        ["a".toList, "b".toList, "c".toList, "d".toList, "e".toList]) 0 0).2).map
        ChartEntry.cid = [10, 20, 30, 40, 50] ∧
    ((layoutRows ([(10 : Int), 20, 30, 40, 50].zip
        ["a".toList, "b".toList, "c".toList, "d".toList, "e".toList]) 0 0).1).length
      = 3 := by
  have h1 := build_position_json_spec [10] ["a".toList] rfl
  have h2 := build_position_json_spec [10, 20] ["a".toList, "b".toList] rfl
  have h5 := build_position_json_spec [10, 20, 30, 40, 50]
    ["a".toList, "b".toList, "c".toList, "d".toList, "e".toList] rfl
  refine ⟨?_, ?_, ?_, h5.1, ?_⟩
  · rw [h1.2.1]
    rfl
  · rw [h2.2.1]
    rfl
  · rw [h5.2.1]
    rfl
  · decide

/-! ## C6 — affirmative-confirmation matching -/

theorem isPrefixOfTrue : ∀ (p l : Str), p.isPrefixOf l = true ↔ p <+: l
  | [], l => by simp
  | a :: p', [] => by simp [List.isPrefixOf]
  | a :: p', b :: l' => by
    simp only [List.isPrefixOf, Bool.and_eq_true, beq_iff_eq,
      List.cons_prefix_cons]
    exact and_congr Iff.rfl (isPrefixOfTrue p' l')

theorem containsSub_iff : ∀ (p s : Str), containsSub p s = true ↔ p <:+: s
  | p, [] => by
    rw [show containsSub p [] = p.isPrefixOf ([] : Str) from rfl,
      isPrefixOfTrue]
    constructor
    · exact fun h => h.isInfix
    · intro h
      obtain ⟨a, b, hab⟩ := h
      rcases List.append_eq_nil.mp hab with ⟨hap, hb⟩
      rcases List.append_eq_nil.mp hap with ⟨ha, hp⟩
      simp [hp]
  | p, c :: rest => by
    rw [show containsSub p (c :: rest) =
      (p.isPrefixOf (c :: rest) || containsSub p rest) from rfl]
    rw [Bool.or_eq_true, isPrefixOfTrue, containsSub_iff p rest,
      List.infix_cons_iff]

theorem infix_survives_dropWhile (p : Str)
    (hhead : ∀ c, p.head? = some c → isPySpace c = false) :
    ∀ (a b : Str), p <:+: (a ++ p ++ b).dropWhile isPySpace
  | [], b => by
    cases p with
    | nil => simp
    | cons hp0 p' =>
      have h0 : isPySpace hp0 = false := hhead hp0 rfl
      rw [List.nil_append, List.cons_append, List.dropWhile_cons, h0]
      simp only [Bool.false_eq_true, if_false]
      exact List.IsPrefix.isInfix ⟨b, rfl⟩
  | c :: a', b => by
    rw [List.cons_append, List.cons_append, List.dropWhile_cons]
    by_cases hc : isPySpace c = true
    · rw [if_pos hc]
      exact infix_survives_dropWhile p hhead a' b
    · rw [if_neg hc]
      exact ⟨c :: a', b, by simp⟩

theorem infix_reverse_of_infix (p s : Str) (h : p <:+: s) :
    p.reverse <:+: s.reverse := by
  obtain ⟨a, b, hab⟩ := h
  exact ⟨b.reverse, a.reverse, by rw [← hab]; simp⟩

theorem infix_survives_pyStrip (p : Str)
    (hhead : ∀ c, p.head? = some c → isPySpace c = false)
    (hlast : ∀ c, p.getLast? = some c → isPySpace c = false)
    (s : Str) (h : p <:+: s) : p <:+: pyStrip s := by
  have h1 : p <:+: s.dropWhile isPySpace := by
    obtain ⟨a, b, hab⟩ := h
    rw [← hab]
    exact infix_survives_dropWhile p hhead a b
  have h2 : p.reverse <:+: (s.dropWhile isPySpace).reverse :=
    infix_reverse_of_infix _ _ h1
  have h3 : p.reverse <:+:
      ((s.dropWhile isPySpace).reverse.dropWhile isPySpace) := by
    obtain ⟨a, b, hab⟩ := h2
    rw [← hab]
    exact infix_survives_dropWhile p.reverse
      (fun c hc => hlast c (by rwa [List.head?_reverse] at hc)) a b
  have h4 := infix_reverse_of_infix _ _ h3
  rwa [List.reverse_reverse] at h4

/-- Decidable sanity facts about the YES vocabulary: every phrase is
non-empty and has non-whitespace first and last characters. -/
theorem yes_phrases_sane : ∀ p ∈ YES, p ≠ [] ∧
    p.head?.all (fun c => !isPySpace c) = true ∧
    p.getLast?.all (fun c => !isPySpace c) = true := by decide

theorem of_option_all {o : Option Char}
    (h : o.all (fun c => !isPySpace c) = true) :
    ∀ c, o = some c → isPySpace c = false := by
  intro c hc
  rw [hc] at h
  simpa using h

theorem char_toNat_ofNat (n : Nat) (h : n < 55296) : (Char.ofNat n).toNat = n := by
  have hv : n.isValidChar := Or.inl h
  simp only [Char.ofNat, hv, dif_pos, Char.ofNatAux, Char.toNat]
  rfl

theorem isPySpace_lowerChar (c : Char) : isPySpace (lowerChar c) = isPySpace c := by
  rw [lowerChar]
  by_cases h : (65 ≤ c.toNat && c.toNat ≤ 90) = true
  · rw [if_pos h]
    simp only [Bool.and_eq_true, decide_eq_true_eq] at h
    have hc : (Char.ofNat (c.toNat + 32)).toNat = c.toNat + 32 :=
      char_toNat_ofNat _ (by omega)
    have h1 : isPySpace (Char.ofNat (c.toNat + 32)) = false := by
      simp only [isPySpace, hc]
      simp only [Bool.or_eq_false_iff, decide_eq_false_iff_not]
      omega
    have h2 : isPySpace c = false := by
      simp only [isPySpace]
      simp only [Bool.or_eq_false_iff, decide_eq_false_iff_not]
      omega
    rw [h1, h2]
  · rw [if_neg h]

theorem lowerStr_pyStrip (s : Str) : lowerStr (pyStrip s) = pyStrip (lowerStr s) := by
  have hws : (isPySpace ∘ lowerChar) = isPySpace :=
    funext fun c => isPySpace_lowerChar c
  simp only [pyStrip, lowerStr, List.dropWhile_map, hws, ← List.map_reverse]

theorem head_dropWhile_false (p : Char → Bool) :
    ∀ (l : Str) (c : Char), (l.dropWhile p).head? = some c → p c = false
  | [], c, h => by simp at h
  | a :: t, c, h => by
    by_cases ha : p a = true
    · rw [List.dropWhile_cons, if_pos ha] at h
      exact head_dropWhile_false p t c h
    · rw [List.dropWhile_cons, if_neg ha] at h
      injection h with h'
      subst h'
      simpa using ha

theorem pyStrip_idem (s : Str) : pyStrip (pyStrip s) = pyStrip s := by
  cases hB : (s.dropWhile isPySpace).reverse.dropWhile isPySpace with
  | nil =>
    have hps : pyStrip s = [] := by
      rw [pyStrip, hB]
      rfl
    rw [hps]
    rfl
  | cons b B' =>
    have hps : pyStrip s = (b :: B').reverse := by
      rw [pyStrip, hB]
    rw [hps]
    apply pyStrip_eq_self
    · intro c hc
      rw [List.head?_reverse] at hc
      have hsuf : (b :: B') <:+ (s.dropWhile isPySpace).reverse := by
        rw [← hB]
        exact List.dropWhile_suffix isPySpace
      obtain ⟨u, hu⟩ := hsuf
      have hlast : (s.dropWhile isPySpace).reverse.getLast? = some c := by
        rw [← hu, List.getLast?_append_of_ne_nil _ (by simp)]
        exact hc
      rw [List.getLast?_reverse] at hlast
      exact head_dropWhile_false isPySpace s c hlast
    · intro c hc
      rw [List.getLast?_reverse, ← hB] at hc
      exact head_dropWhile_false isPySpace _ c hc

theorem is_yes_pyStrip (msg : Str) : is_yes (pyStrip msg) = is_yes msg := by
  rw [is_yes, is_yes, lowerStr_pyStrip, pyStrip_idem]

/-- The heart of C6: a YES phrase occurring case-insensitively anywhere in
the message makes `_is_yes` true. -/
theorem is_yes_of_phrase (msg p : Str) (hp : p ∈ YES)
    (h : p <:+: lowerStr msg) : is_yes msg = true := by
  obtain ⟨hne, hh, hl⟩ := yes_phrases_sane p hp
  have h1 : p <:+: pyStrip (lowerStr msg) :=
    infix_survives_pyStrip p (of_option_all hh) (of_option_all hl) _ h
  rw [is_yes]
  exact List.any_eq_true.mpr ⟨p, hp, (containsSub_iff p _).mpr h1⟩

/-- C6: in `waiting_confirm`, a message containing any YES-vocabulary
phrase as a case-insensitive substring is classified affirmative and takes
the build branch (the directive turn is appended to the stored history);
`"no"` is not part of the vocabulary, so `"nowhere"` is not matched via
`"no"` and is not affirmative; and a non-affirmative message leaves the
stored session in `waiting_confirm` (continuation of the dialogue). -/
theorem confirmation_matching
    (env : Env) (sessions : Sessions) (sid raw : Str)
    (ctx : Option UserContext) (sess : Session)
    (hsess : alookup sessions sid = some sess)
    (hstate : sess.state = .waiting_confirm) :
    (∀ p ∈ YES, p <:+: lowerStr raw →
      is_yes (pyStrip raw) = true ∧
      ∃ s', alookup (handle_message env sessions sid raw ctx).2 sid = some s' ∧
        directiveTurn ∈ s'.history) ∧
    (is_yes ("nowhere".toList) = false ∧ "no".toList ∉ YES ∧
      is_yes ("go ahead".toList) = true ∧ is_yes ("ok".toList) = true ∧
      is_yes ("LOOKS GOOD".toList) = true) ∧
    (is_yes (pyStrip raw) = false →
      ∃ s', alookup (handle_message env sessions sid raw ctx).2 sid = some s' ∧
        s'.state = .waiting_confirm) := by
  refine ⟨?_, by decide, ?_⟩
  · intro p hp hinf
    have hyes : is_yes (pyStrip raw) = true := by
      rw [is_yes_pyStrip]
      exact is_yes_of_phrase raw p hp hinf
    refine ⟨hyes, ?_⟩
    simp only [handle_message, hsess, hstate, hyes, if_true]
    split
    · exact ⟨_, alookup_aset_self _ _ _, by simp⟩
    · split
      · exact ⟨_, alookup_aset_self _ _ _, by simp⟩
      · exact ⟨_, alookup_aset_self _ _ _, by simp⟩
  · intro hno
    simp only [handle_message, hsess, hstate, hno, Bool.false_eq_true, if_false]
    split
    · exact ⟨_, alookup_aset_self _ _ _, by simp [hstate]⟩
    · exact ⟨_, alookup_aset_self _ _ _, by simp [hstate]⟩

/-- Witness for C6: `"please GO AHEAD"` (matched via `"go ahead"`) takes the
build branch, and `"nowhere"` leaves the session in `waiting_confirm`. -/
theorem confirmation_matching_witness :
    (is_yes (pyStrip ("please GO AHEAD".toList)) = true ∧
      ∃ s', alookup (handle_message c6Env c6Sessions ("s".toList)
          ("please GO AHEAD".toList) none).2 ("s".toList) = some s' ∧
        directiveTurn ∈ s'.history) ∧
    (∃ s', alookup (handle_message c6Env c6Sessions ("s".toList)
        ("nowhere".toList) none).2 ("s".toList) = some s' ∧
      s'.state = .waiting_confirm) := by
  have h := confirmation_matching c6Env c6Sessions ("s".toList)
    ("please GO AHEAD".toList) none
    ⟨[], .waiting_confirm, none, none, 0, none⟩ rfl rfl
  have h2 := confirmation_matching c6Env c6Sessions ("s".toList)
    ("nowhere".toList) none
    ⟨[], .waiting_confirm, none, none, 0, none⟩ rfl rfl
  exact ⟨h.1 ("go ahead".toList) (by decide) (by decide),
    h2.2.2 (by decide)⟩

/-! ## C2 — state after a failed build attempt -/

/-- C2 amended (the failure cases the code does revert): once the session
entered `building` on a confirmed message and the structured-plan model
call *succeeded*, any failure of the build attempt — extraction,
normalization, validation, or build — reverts the stored state to
`waiting_confirm`, and the handler returns the retry prompt in-band. -/
theorem build_failure_reverts
    (env : Env) (sessions : Sessions) (sid raw : Str)
    (ctx : Option UserContext) (sess : Session) (jr : Str) (e : BuildFailure)
    (hsess : alookup sessions sid = some sess)
    (hstate : sess.state = .waiting_confirm)
    (hyes : is_yes (pyStrip raw) = true)
    (hclaude : env.claude ((sess.history ++ [Turn.mk ("user".toList) (pyStrip raw)])
        ++ [directiveTurn]) = .ok jr)
    (hfail : build_attempt env (late_user env ctx sess.user) jr = .error e) :
    (handle_message env sessions sid raw ctx).1 =
      .ok (Response.mk (failReply e) .waiting_confirm none) ∧
    ∃ s', alookup (handle_message env sessions sid raw ctx).2 sid = some s' ∧
      s'.state = .waiting_confirm := by
  simp only [handle_message, hsess, hstate, hyes, if_true, hclaude, hfail]
  exact ⟨trivial, _, alookup_aset_self _ _ _, rfl⟩

/-- C2 counterexample: when the language-model call made from the
`building` state fails, the exception escapes `_handle_message` (the call
sits outside the `try`), the outer `/message` handler replies with state
`new`, but the *stored* session state remains `building` — refuting "no
execution path leaves the stored session state equal to building". -/
theorem c2_llm_failure_leaves_building :
    (alookup (serve_message c2FailEnv c2Sessions ("s".toList) ("yes".toList)
        none).2 ("s".toList)).map Session.state = some SState.building ∧
    (serve_message c2FailEnv c2Sessions ("s".toList) ("yes".toList)
        none).1.state = SState.new := by
  constructor <;> rfl

/-- Witness for the amended C2: a confirmed message whose structured reply
fails extraction reverts the stored state to `waiting_confirm`. -/
theorem build_failure_reverts_witness :
    (handle_message c2OkEnv c2Sessions ("s".toList) ("ok".toList) none).1 =
      .ok (Response.mk (failReply .parseFailed) .waiting_confirm none) ∧
    ∃ s', alookup (handle_message c2OkEnv c2Sessions ("s".toList)
        ("ok".toList) none).2 ("s".toList) = some s' ∧
      s'.state = .waiting_confirm :=
  build_failure_reverts c2OkEnv c2Sessions ("s".toList) ("ok".toList) none
    ⟨[], .waiting_confirm, none, none, 0, none⟩ ("no json here".toList)
    .parseFailed rfl rfl (by decide) rfl rfl

/-! ## C4 — session expiry -/

/-- C4 counterexample: a message to an expired (but not yet dropped)
session does NOT treat it as absent: the handler revives it — the old turn
is still in the stored history and the old `waiting_confirm` state is
resumed, so the prior state and history are recoverable, refuting "treated
as absent by every inbound operation ... recreates it in state new". -/
theorem c4_message_revives_expired_session :
    c4Env.now - 0 > SESSION_TIMEOUT ∧
    ∃ s', alookup (serve_message c4Env c4Sessions ("s".toList)
        ("hello".toList) none).2 ("s".toList) = some s' ∧
      c4OldTurn ∈ s'.history ∧ s'.state = .waiting_confirm := by
  refine ⟨by decide, ⟨_, rfl, ?_, rfl⟩⟩
  decide

/-- C4 amended: the `history` endpoint does treat an expired session as
absent — it returns an empty message list and drops the session; and once
the key is absent, a new message recreates the session from scratch in
state `new`, immediately processing it to a fresh proposal (history is just
the new turn and the reply). A message to an expired session that was not
dropped first, however, resumes it (the message path does not check
expiry). -/
theorem session_expiry_amended :
    (∀ (now : Nat) (sessions : Sessions) (sid : Str) (sess : Session),
      alookup sessions sid = some sess →
      now - sess.last_active > SESSION_TIMEOUT →
      history_endpoint now sessions sid = ([], adel sessions sid)) ∧
    (∀ (env : Env) (sessions : Sessions) (sid raw reply : Str),
      alookup sessions sid = none →
      env.claude [Turn.mk ("user".toList) (pyStrip raw)] = .ok reply →
      ∃ s', alookup (handle_message env sessions sid raw none).2 sid = some s' ∧
        s'.state = .waiting_confirm ∧
        s'.history = [Turn.mk ("user".toList) (pyStrip raw),
                      Turn.mk ("assistant".toList) reply]) := by
  constructor
  · intro now sessions sid sess hsess hexp
    simp only [history_endpoint, hsess]
    rw [if_pos hexp]
  · intro env sessions sid raw reply hsess hclaude
    simp only [handle_message, hsess, initialSession, late_user,
      List.nil_append, hclaude]
    exact ⟨_, alookup_aset_self _ _ _, rfl, by simp⟩

/-- Witness for the amended C4: the expired session from the C4
counterexample is dropped by a history request, and a message for the
now-absent key builds a fresh two-turn history in `waiting_confirm`. -/
theorem session_expiry_amended_witness :
    history_endpoint 100000 c4Sessions ("s".toList) =
      ([], adel c4Sessions ("s".toList)) ∧
    ∃ s', alookup (handle_message c4Env [] ("s".toList) (" hello ".toList)
        none).2 ("s".toList) = some s' ∧
      s'.state = .waiting_confirm ∧
      s'.history = [Turn.mk ("user".toList) ("hello".toList),
                    Turn.mk ("assistant".toList) ("hi".toList)] := by
  constructor
  · exact session_expiry_amended.1 100000 c4Sessions ("s".toList)
      ⟨[c4OldTurn], .waiting_confirm, none, none, 0, none⟩ rfl (by decide)
  · have h := session_expiry_amended.2 c4Env [] ("s".toList)
      (" hello ".toList) ("hi".toList) rfl rfl
    obtain ⟨s', hs, hst, hh⟩ := h
    exact ⟨s', hs, hst, by rw [hh]; decide⟩

end SuperGenie
